import Mathlib

/-!
Verification development for the spunkads extractor.

This file gives a shallow embedding, in Lean, of the two algorithmic cores of
the repository and proves the testable properties stated in its design
document against that embedding:

* the cursor-based paginator `load_more_broadcasts_paginated` together with
  the date-window construction of `extract_data_from_page`
  (source: `t/app_ultra_fast_oop.py`), and
* the revenue reconciliation pipeline `fetch_revenue_for_extracted_pages`,
  `call_spunkstats_api`, `extract_revenue_and_timestamp_for_page`,
  `extract_unmatched_utm_sources`, plus the campaign-exclusion logic of
  `create_detailed_row` / `create_summary_row`
  (source: `data_extraction.py`).

Modelling conventions, used throughout:

* Python truthiness is modelled explicitly: a missing or `None` value is
  `Option.none`; a number is falsy exactly when it is `0`; a string is falsy
  exactly when it is `""`; a list/dict is falsy exactly when it is empty.
* Python `float` revenue arithmetic is modelled with exact rationals (`Rat`);
  `f-string` 2-decimal rendering is modelled by `fmt2`.
* Python `dict` objects keyed by strings are modelled as association lists
  with insert-or-replace semantics preserving insertion order (`dictInsert`),
  which is exactly the observable behaviour of a CPython dict.
* Network effects are modelled by passing the sequence of page payloads the
  session would deliver (`List (Option PageData)`), and the single revenue
  API call by its outcome (`ApiOutcome`).
-/

set_option linter.unusedVariables false

namespace Spunkads

/-! ## Date handling

`load_more_broadcasts_paginated` converts the `start_date`/`end_date` strings
of the date filter to POSIX timestamps: the start date at 00:00:00 and the
end date at 23:59:59, both interpreted in the fixed reporting timezone
MANYCHAT_TIMEZONE = UTC-4 (`properties.py`). We model a parsed `YYYY-MM-DD`
string as a `CivilDate` and the conversion with the standard civil-from-days
algorithm; all divisions below act on nonnegative operands, where every
integer-division convention agrees. A date at 00:00:00 UTC-4 is 04:00:00 UTC,
hence the +14400 seconds. -/

structure CivilDate where
  year : Int
  month : Int
  day : Int
deriving DecidableEq, Repr

def daysFromCivil (dt : CivilDate) : Int :=
  let y := if dt.month ≤ 2 then dt.year - 1 else dt.year
  let era := (if 0 ≤ y then y else y - 399) / 400
  let yoe := y - era * 400
  let mp := (dt.month + 9) % 12
  let doy := (153 * mp + 2) / 5 + dt.day - 1
  let doe := yoe * 365 + yoe / 4 - yoe / 100 + doy
  era * 146097 + doe - 719468

/-- Model of `int(start_dt.timestamp())` for `start_date` at 00:00:00 UTC-4. -/
def startTimestamp (d : CivilDate) : Int :=
  86400 * daysFromCivil d + 14400

/-- Model of `int(end_dt.timestamp())` for `end_date` at 23:59:59 UTC-4. -/
def endTimestamp (d : CivilDate) : Int :=
  86400 * daysFromCivil d + 14400 + 86399

/-! ## Pagination data model -/

/-- One broadcast/post of a page payload. Only the `timestamp` field takes
part in the pagination logic (`post.get("timestamp")`, `None` when absent);
`pid` stands for the rest of the post's free-form payload and keeps distinct
posts distinct. -/
structure Post where
  timestamp : Option Int
  pid : Nat
deriving DecidableEq, Repr

/-- One decoded page payload: `posts = page_data.get("posts", [])` and
`new_limiter = page_data.get("limiter")` (the opaque pagination cursor,
`None` when absent). -/
structure PageData where
  posts : List Post
  limiter : Option String
deriving DecidableEq, Repr

/-- The date filter dict built by `extract_data_from_page`:
`{"start_date": ..., "end_date": ...}`. Fields are optional to model
`date_filter.get(...)` on an arbitrary dict. -/
structure DateFilter where
  start_date : Option CivilDate
  end_date : Option CivilDate
deriving DecidableEq, Repr

/-- Source `extract_data_from_page` lines 489-492: the filter dict is created only
when BOTH `target_date_start` and `target_date_end` are truthy (present and
non-empty); otherwise `date_filter` stays `None`. An absent-or-empty date
string is modelled as `none`. -/
def mkDateFilter : Option CivilDate → Option CivilDate → Option DateFilter
  | some s, some e => some ⟨some s, some e⟩
  | _, _ => none

/-- Lines 288-311: `start_ts`/`end_ts` are computed only when
`date_filter and date_filter.get("start_date") and date_filter.get("end_date")`
is truthy; otherwise both stay `None` (modelled as `none`). -/
def computeWindow : Option DateFilter → Option (Int × Int)
  | some df =>
    match df.start_date, df.end_date with
    | some s, some e => some (startTimestamp s, endTimestamp e)
    | _, _ => none
  | none => none

/-- Python truthiness of the numeric timestamps: `None` and `0` are falsy. -/
def tsTruthy : Option Int → Bool
  | none => false
  | some t => t != 0

/-- Python truthiness of the cursor string: `None` and `""` are falsy
(`if not new_limiter`). -/
def limTruthy : Option String → Bool
  | none => false
  | some s => s != ""

/-- Line 431: `if start_ts and end_ts:` then the range check
`start_ts <= post_ts <= end_ts`, else the post is kept unconditionally. -/
def inWindow (w : Option (Int × Int)) (t : Int) : Bool :=
  match w with
  | some (s, e) => if s ≠ 0 ∧ e ≠ 0 then decide (s ≤ t ∧ t ≤ e) else true
  | none => true

/-- State of the per-page post loop (lines 418-435): the filtered posts in
order, and the min/max raw timestamp seen among truthy-timestamp posts. -/
structure ScanState where
  inRange : List Post
  oldest : Option Int
  newest : Option Int
deriving DecidableEq, Repr

/-- Lines 422-435, one post: posts whose `timestamp` is absent or `0` are
skipped entirely (`if post_ts:`); otherwise the oldest/newest trackers are
updated and the post is filtered into `page_posts_in_range`. -/
def scanPost (w : Option (Int × Int)) (st : ScanState) (p : Post) : ScanState :=
  match p.timestamp with
  | none => st
  | some t =>
    if t = 0 then st
    else
      { inRange := if inWindow w t then st.inRange ++ [p] else st.inRange
        oldest := some (match st.oldest with | none => t | some o => min t o)
        newest := some (match st.newest with | none => t | some o => max t o) }

def pageScan (w : Option (Int × Int)) (posts : List Post) : ScanState :=
  posts.foldl (scanPost w) ⟨[], none, none⟩

/-- Line 457: `if start_ts and oldest_in_page and oldest_in_page < start_ts`.
Note only `start_ts` is consulted, and both operands go through Python
truthiness. -/
def pastWindowStop (w : Option (Int × Int)) (oldest : Option Int) : Bool :=
  match w, oldest with
  | some (s, _), some o => s != 0 && o != 0 && o < s
  | _, _ => false

/-- Reason the `while` loop of `load_more_broadcasts_paginated` ended; each
constructor corresponds to one exit point of the source loop. -/
inductive StopReason where
  /-- No payload obtained for this page (lines 390/395/400). -/
  | noData
  /-- Exit `if not posts:` (line 412). -/
  | emptyPage
  /-- Exit `if not new_limiter or new_limiter == limiter:` (line 451). -/
  | cursorExhausted
  /-- All raw posts of the page older than the window start (line 457). -/
  | pastWindow
  /-- Loop guard `while page_count < max_pages` exhausted (line 316). -/
  | pageLimit
deriving DecidableEq, Repr, BEq

/-- Result of the pagination loop: `all_posts`, the exit taken, and the final
`page_count` (the number of page payloads requested/processed). -/
structure PagResult where
  posts : List Post
  reason : StopReason
  pages : Nat
deriving DecidableEq, Repr

/-- Lines 316-468, the `while page_count < max_pages` loop. `responses` is
the sequence of page payloads the session delivers to the successive fetch
attempts (`none` = no payload, covering timeouts, errors and malformed
bodies); `limiter` is the cursor used to fetch the current page (initially
`None`); `acc` is `all_posts`. Every stop condition is evaluated only after
the page's in-window posts have been appended to `acc`. -/
def paginateLoop (w : Option (Int × Int)) :
    Nat → List (Option PageData) → Option String → List Post → PagResult
  | 0, _, _, acc => ⟨acc, .pageLimit, 0⟩
  | fuel + 1, responses, limiter, acc =>
    match responses with
    | [] => ⟨acc, .noData, 1⟩
    | none :: _ => ⟨acc, .noData, 1⟩
    | some pd :: rest =>
      if pd.posts.isEmpty then
        ⟨acc, .emptyPage, 1⟩
      else
        let st := pageScan w pd.posts
        let acc2 := acc ++ st.inRange
        if limTruthy pd.limiter = false ∨ pd.limiter = limiter then
          ⟨acc2, .cursorExhausted, 1⟩
        else if pastWindowStop w st.oldest then
          ⟨acc2, .pastWindow, 1⟩
        else
          let r := paginateLoop w fuel rest pd.limiter acc2
          ⟨r.posts, r.reason, r.pages + 1⟩

/-- Source `load_more_broadcasts_paginated` (lines 275-475): runs the page loop with
cursor `None`, empty accumulator, and the timestamp window computed from the
date filter. `max_pages` defaults to 25 in the source. -/
def load_more_broadcasts_paginated (responses : List (Option PageData))
    (date_filter : Option DateFilter) (max_pages : Nat) : PagResult :=
  paginateLoop (computeWindow date_filter) max_pages responses none []

/-- The pages the loop obtains a payload for and processes, mirroring the
control flow of `paginateLoop` exactly; used to state what "all posts of all
processed pages" means. -/
def processedPages (w : Option (Int × Int)) :
    Nat → List (Option PageData) → Option String → List PageData
  | 0, _, _ => []
  | fuel + 1, responses, limiter =>
    match responses with
    | [] => []
    | none :: _ => []
    | some pd :: rest =>
      if pd.posts.isEmpty then [pd]
      else if limTruthy pd.limiter = false ∨ pd.limiter = limiter then [pd]
      else if pastWindowStop w (pageScan w pd.posts).oldest then [pd]
      else pd :: processedPages w fuel rest pd.limiter

/-! ## Revenue reconciliation data model (`data_extraction.py`) -/

/-- One row of the SpunkStats feed, as consumed by the two extraction
functions. The source reads every field defensively from a dict:
`utm_s`, `dt`, `o`, `utm_m` go through `str(...)` (absent keys default to
`""`, resp. `"N/A"` for `dt`); `a` through `float(row.get("a", 0))` and
`c`/`cl`/`l` through `int(...)`, where `none` models a value those
conversions raise on (coerced to zero by the source). -/
structure RevRow where
  utm_s : String
  a : Option Rat
  dt : String
  o : String
  utm_m : String
  c : Option Int
  cl : Option Int
  l : Option Int
deriving DecidableEq, Repr

/-- Model of Python `str.strip()`: drop leading and trailing whitespace. -/
def pyStrip (s : String) : String :=
  ⟨((s.data.dropWhile Char.isWhitespace).reverse.dropWhile Char.isWhitespace).reverse⟩

/-- Model of `str(row.get("utm_s", "")).strip()`. -/
def stripTag (r : RevRow) : String := pyStrip r.utm_s

/-- Model of `float(row.get("a", 0))` with `(ValueError, TypeError)` coerced to 0. -/
def parsePayout (r : RevRow) : Rat := r.a.getD 0

/-- The single `try` block parsing `c`, `cl`, `l`: one failure zeroes all
three for that row. -/
def parseCounters (r : RevRow) : Int × Int × Int :=
  match r.c, r.cl, r.l with
  | some c, some cl, some l => (c, cl, l)
  | _, _, _ => (0, 0, 0)

/-- Model of Python `f"{x:.2f}"` on the exact value: round to whole cents and
render with two decimals. -/
def fmt2 (q : Rat) : String :=
  let cents : Int := round (q * 100)
  let sign := if cents < 0 then "-" else ""
  let n := cents.natAbs
  sign ++ toString (n / 100) ++ "." ++ (if n % 100 < 10 then "0" else "") ++ toString (n % 100)

/-- The per-entity revenue record dict produced throughout
`data_extraction.py` (keys `revenue`, `timestamp`, `offer`, `utm_medium`,
`conversion_count`, `clicks`, `leads`). -/
structure RevenueInfo where
  revenue : String
  timestamp : String
  offer : String
  utm_medium : String
  conversion_count : String
  clicks : String
  leads : String
deriving DecidableEq, Repr

/-- The default empty record assigned on no-match, missing credentials and
API failure. -/
def zeroRecord : RevenueInfo :=
  ⟨"0.00", "N/A", "", "", "", "", ""⟩

/-- Accumulator of the matching loop of
`extract_revenue_and_timestamp_for_page` (lines 487-553). -/
structure ExtractState where
  total_revenue : Rat
  total_conversions : Int
  total_clicks : Int
  total_leads : Int
  timestamp : String
  offer_name : String
  utm_medium : String
  matched : Bool
deriving DecidableEq, Repr

def initExtractState : ExtractState :=
  ⟨0, 0, 0, 0, "N/A", "", "", false⟩

/-- One iteration of the matching loop: rows whose stripped `utm_s` equals
`page_name` contribute their payout and counters; `dt`, `o`, `utm_m` are
captured from the first matching row carrying a non-sentinel value. -/
def extractStep (page_name : String) (st : ExtractState) (r : RevRow) : ExtractState :=
  if stripTag r = page_name then
    let (conv, clk, led) := parseCounters r
    { total_revenue := st.total_revenue + parsePayout r
      total_conversions := st.total_conversions + conv
      total_clicks := st.total_clicks + clk
      total_leads := st.total_leads + led
      timestamp := if st.timestamp = "N/A" then r.dt else st.timestamp
      offer_name := if st.offer_name = "" then r.o else st.offer_name
      utm_medium := if st.utm_medium = "" then r.utm_m else st.utm_medium
      matched := true }
  else st

/-- Source `extract_revenue_and_timestamp_for_page` (lines 476-583): `none` when no
row's stripped tag equals the page name (`if matching_rows:` fails), else the
aggregated record. -/
def extract_revenue_and_timestamp_for_page (rows : List RevRow) (page_name : String) :
    Option RevenueInfo :=
  let st := rows.foldl (extractStep page_name) initExtractState
  if st.matched then
    some ⟨fmt2 st.total_revenue, st.timestamp, st.offer_name, st.utm_medium,
          toString st.total_conversions, toString st.total_clicks, toString st.total_leads⟩
  else none

/-- The fold state `{"total_revenue": ..., "timestamp": ..., "row_count": ...}`
of `utm_s_revenue_map` in `extract_unmatched_utm_sources`. -/
structure UnmatchedAcc where
  total_revenue : Rat
  timestamp : String
  row_count : Nat
deriving DecidableEq, Repr

/-- Adding one row's revenue to its tag's accumulator (lines 313-332). -/
def updateAcc (acc : UnmatchedAcc) (r : RevRow) : UnmatchedAcc :=
  { total_revenue := acc.total_revenue + parsePayout r
    timestamp := if acc.timestamp = "N/A" then r.dt else acc.timestamp
    row_count := acc.row_count + 1 }

/-- CPython-dict insert-or-update for the `utm_s_revenue_map`: an existing
key keeps its position, a new key is appended. -/
def addUnmatchedRow (m : List (String × UnmatchedAcc)) (tag : String) (r : RevRow) :
    List (String × UnmatchedAcc) :=
  if m.any (fun e => e.1 = tag) then
    m.map (fun e => if e.1 = tag then (tag, updateAcc e.2 r) else e)
  else
    m ++ [(tag, updateAcc ⟨0, "N/A", 0⟩ r)]

/-- The body of the grouping loop, one row: skip empty stripped tags
(line 304), skip known page names (line 309), otherwise accumulate. -/
def unmatchedStep (known : List String) (m : List (String × UnmatchedAcc)) (r : RevRow) :
    List (String × UnmatchedAcc) :=
  let tag := stripTag r
  if tag = "" then m
  else if tag ∈ known then m
  else addUnmatchedRow m tag r

/-- Lines 294-332: group the rows whose stripped tag is non-empty and not a
known page name, by tag, accumulating revenue / first date / row count. -/
def buildUnmatchedMap (rows : List RevRow) (known : List String) :
    List (String × UnmatchedAcc) :=
  rows.foldl (unmatchedStep known) []

/-- Source `extract_unmatched_utm_sources` (lines 271-364): the grouped map rendered
as records, keeping an entry when its revenue is positive or the
`include_zero_revenue` config flag (absent from
`Properties.get_extraction_config`, hence defaulting to `True`) is set.
Pseudo-entities carry only revenue and first date. -/
def extract_unmatched_utm_sources (rows : List RevRow) (known : List String)
    (includeZero : Bool) : List (String × RevenueInfo) :=
  (buildUnmatchedMap rows known).filterMap (fun e =>
    if 0 < e.2.total_revenue ∨ includeZero then
      some (e.1, ⟨fmt2 e.2.total_revenue, e.2.timestamp, "", "", "", "", ""⟩)
    else none)

/-! ## The per-run reconciliation dict -/

/-- One configured page of `page_ids.json` (`self.pages_full_data`); only
`id` and `name` take part in reconciliation. -/
structure Page where
  id : String
  name : String
deriving DecidableEq, Repr

/-- CPython dict assignment `d[k] = v` on a string-keyed dict modelled as an
ordered association list: replace in place, or append a new key. -/
def dictInsert (d : List (String × RevenueInfo)) (k : String) (v : RevenueInfo) :
    List (String × RevenueInfo) :=
  if d.any (fun e => e.1 = k) then
    d.map (fun e => if e.1 = k then (k, v) else e)
  else
    d ++ [(k, v)]

def dictLookup (d : List (String × RevenueInfo)) (k : String) : Option RevenueInfo :=
  match d.find? (fun e => e.1 = k) with
  | some e => some e.2
  | none => none

/-- The `for page in self.pages_full_data: revenue_data[page_name] = {...}`
loops that assign the zero-valued record to every configured page (missing
credentials, lines 159-170, and API failure, lines 236-249). -/
def zeroAll (pages : List Page) : List (String × RevenueInfo) :=
  pages.foldl (fun d p => dictInsert d p.name zeroRecord) []

/-- Outcome of the single revenue API call of a run, as distinguished by
`call_spunkstats_api` (lines 428-474). -/
inductive ApiOutcome where
  /-- Case `response.json()` parsed to a list of rows. -/
  | listResp (rows : List RevRow)
  /-- Parsed JSON that is not a list (line 466). -/
  | nonListResp
  /-- Case `requests.exceptions.RequestException` (line 469). -/
  | requestError
  /-- Case `json.JSONDecodeError` (line 472). -/
  | jsonError
deriving DecidableEq, Repr

/-- Source `call_spunkstats_api`: a list response is wrapped as
`{"data": data, "status": 200}` (a truthy dict, modelled `some rows`); every
failure mode returns the falsy `{}` (modelled `none`). No exception escapes. -/
def call_spunkstats_api : ApiOutcome → Option (List RevRow)
  | .listResp rows => some rows
  | _ => none

/-- The record assigned to one configured page from a successful response:
the extracted record, or the zero record when the page is not found
(lines 204-228). -/
def entityRecord (rows : List RevRow) (name : String) : RevenueInfo :=
  (extract_revenue_and_timestamp_for_page rows name).getD zeroRecord

/-- Source `fetch_revenue_for_extracted_pages` (lines 110-269). The early return at
line 148 fires iff `pages_full_data` is empty (the known-name set contains an
entry for every configured page, and `pages_to_process` is a subset of
those). Reconciliation then runs against every configured page — not only
the extracted ones — and finally merges in the pseudo-entities via
`revenue_data.update(...)`. -/
def fetch_revenue_for_extracted_pages (pages : List Page) (user_id api_key : String)
    (outcome : ApiOutcome) (includeZero : Bool) : List (String × RevenueInfo) :=
  if pages.isEmpty then []
  else if user_id = "" ∨ api_key = "" then zeroAll pages
  else
    match call_spunkstats_api outcome with
    | some rows =>
      let known := pages.map (·.name)
      let d := pages.foldl (fun d p => dictInsert d p.name (entityRecord rows p.name)) []
      (extract_unmatched_utm_sources rows known includeZero).foldl
        (fun d e => dictInsert d e.1 e.2) d
    | none => zeroAll pages

/-! ## Campaign exclusion and CSV aggregation (`data_extraction.py`) -/

/-- The `stats` sub-dict of a post; numeric fields may be absent or `None`
(both read back as `none` through `stats.get(..., 0) or 0`). -/
structure Stats where
  sent : Option Int
  delivered : Option Int
  read : Option Int
  opened : Option Int
  clicked : Option Int
deriving DecidableEq, Repr

/-- A post as consumed by the CSV builders. The name-bearing fields model
key PRESENCE in the post dict (`"name" in post` etc.), so `some ""` is a
present empty name. -/
structure CsvPost where
  post_id : String
  flow_name : Option String
  name : Option String
  preview : Option String
  namespaceField : Option String
  timestamp : Option Int
  scheduled_time : Option Int
  created_at : Option Int
  stats : Stats
  status : String
deriving DecidableEq, Repr

/-- Campaign-name resolution of `create_detailed_row` (lines 809-817):
`post["flow"]["name"]`, else `post["name"]`, else `post["preview"]`, else
`post["namespace"]`, else `""` — first PRESENT key wins, even when its value
is empty. -/
def campaignName (p : CsvPost) : String :=
  match p.flow_name with
  | some n => n
  | none =>
    match p.name with
    | some n => n
    | none =>
      match p.preview with
      | some n => n
      | none => p.namespaceField.getD ""

/-- Constant `Properties.EXCLUDE_CAMPAIGN_NAMES` from `properties.py`. -/
def EXCLUDE_CAMPAIGN_NAMES : List String :=
  ["test", "draft", "sample", "copy"]

/-- The character list of `s.lower()`; two strings are `.lower()`-equal in
Python iff their lowered character lists are equal. -/
def lowerList (s : String) : List Char :=
  s.data.map Char.toLower

/-- Lines 819-825: `name.lower() in [e.lower() for e in EXCLUDE_CAMPAIGN_NAMES]`
— membership, i.e. case-insensitive EQUALITY with a configured name. -/
def isExcluded (name : String) : Bool :=
  EXCLUDE_CAMPAIGN_NAMES.any (fun e => lowerList e = lowerList name)

/-- Model of `stats.get(field, 0) or 0`: absent/`None` reads as 0. -/
def statVal : Option Int → Int
  | none => 0
  | some v => v

/-- Model of `(stats.get("read", 0) or 0) or (stats.get("opened", 0) or 0)`: a falsy
read count falls through to the opened count. -/
def readVal (s : Stats) : Int :=
  if statVal s.read ≠ 0 then statVal s.read else statVal s.opened

/-- One detailed CSV row (lines 868-884). The source additionally renders
the two timestamps as UTC-4 strings and attaches the page-details /
post-url columns looked up elsewhere; those columns play no role in
inclusion, exclusion or aggregation and are kept in raw form here. -/
structure DetailedRow where
  pagename : String
  page_id : String
  campaign_name : String
  timestamp : Option Int
  time_scheduled : Option Int
  sent : Int
  delivered : Int
  read : Int
  clicked : Int
  post_id : String
  status : String
deriving DecidableEq, Repr

/-- Source `create_detailed_row` (lines 798-888): `None` exactly when the campaign
name matches the exclusion list; otherwise the assembled row. -/
def create_detailed_row (page_name page_id : String) (post : CsvPost) :
    Option DetailedRow :=
  let name := campaignName post
  if isExcluded name then none
  else some
    { pagename := page_name
      page_id := page_id
      campaign_name := name
      timestamp := post.timestamp
      time_scheduled :=
        match post.scheduled_time with
        | some t => some t
        | none => match post.created_at with
          | some t => some t
          | none => post.timestamp
      sent := statVal post.stats.sent
      delivered := statVal post.stats.delivered
      read := readVal post.stats
      clicked := statVal post.stats.clicked
      post_id := post.post_id
      status := if post.status = "sent" then "published" else post.status }

/-- The five aggregate columns of a summary CSV row. -/
structure SummaryTotals where
  totalCampaigns : Nat
  totalSent : Int
  totalDelivered : Int
  totalRead : Int
  totalClicked : Int
deriving DecidableEq, Repr

/-- The aggregation core of `create_summary_row` (lines 900-914):
`total_campaigns = len(posts)` and a loop summing the stats of EVERY post of
the page — the exclusion list is not consulted here. -/
def create_summary_totals (posts : List CsvPost) : SummaryTotals :=
  posts.foldl (fun t p =>
    { totalCampaigns := t.totalCampaigns
      totalSent := t.totalSent + statVal p.stats.sent
      totalDelivered := t.totalDelivered + statVal p.stats.delivered
      totalRead := t.totalRead + readVal p.stats
      totalClicked := t.totalClicked + statVal p.stats.clicked })
    ⟨posts.length, 0, 0, 0, 0⟩

/-- Case-insensitive substring occurrence, used only to STATE the spec's
"campaign-name substrings" exclusion claim. -/
def containsCI (needle hay : String) : Bool :=
  (List.range (hay.data.length + 1)).any
    (fun i => (lowerList needle).isPrefixOf ((lowerList hay).drop i))

/-! ## Statement-level abbreviations for the reconciliation claims -/

/-- Sum of the parsed payout values of a list of feed rows. -/
def sumPayout (l : List RevRow) : Rat :=
  (l.map parsePayout).sum

/-- The `total_revenue` accumulated for one known entity by the matching
loop of `extract_revenue_and_timestamp_for_page`. -/
def entityTotal (rows : List RevRow) (name : String) : Rat :=
  (rows.foldl (extractStep name) initExtractState).total_revenue

/-- A row that feeds the unmatched grouping: non-empty stripped tag, not a
known page name. -/
def isUnmatchedRow (known : List String) (r : RevRow) : Bool :=
  decide (stripTag r ≠ "") && decide (stripTag r ∉ known)

/-- The pseudo-entity keys: the keys of `utm_s_revenue_map`. -/
def unmatchedKeys (rows : List RevRow) (known : List String) : List String :=
  (buildUnmatchedMap rows known).map Prod.fst

/-- The per-pseudo-entity accumulated payouts, in key order. -/
def pseudoTotals (rows : List RevRow) (known : List String) : List Rat :=
  (buildUnmatchedMap rows known).map (fun e => e.2.total_revenue)

/-! ## Concrete reconciliation instances used by the closed check theorems -/

/-- Scenario A of the spec: rows `PageA`:10.5, `PageA`:5, `Unknown1`:2. -/
def scenARows : List RevRow :=
  [⟨"PageA", some (21/2 : Rat), "2025-09-26", "OfferX", "m1", some 1, some 2, some 0⟩,
   ⟨"PageA", some (5 : Rat), "2025-09-26", "", "", some 1, some 1, some 0⟩,
   ⟨"Unknown1", some (2 : Rat), "2025-09-26", "", "", some 0, some 1, some 0⟩]

/-- Scenario A known entity names. -/
def scenANames : List String := ["PageA", "PageB"]

/-- Two configured pages matching Scenario A. -/
def scenPages : List Page := [⟨"fb1", "PageA"⟩, ⟨"fb2", "PageB"⟩]

/-- A post whose campaign name CONTAINS the excluded word "test" without
being equal to it. -/
def c4SubstrPost : CsvPost :=
  ⟨"p1", some "my test campaign", none, none, none, some 100, none, none,
   ⟨some 5, some 4, some 3, none, some 2⟩, "sent"⟩

/-- A post whose campaign name equals (case-insensitively) the excluded
word "test". -/
def c4ExcludedPost : CsvPost :=
  ⟨"p2", some "Test", none, none, none, some 100, none, none,
   ⟨some 5, some 4, some 3, none, some 2⟩, "sent"⟩

/-! ## Concrete instances used by the closed check theorems -/

/-- The timestamp window of Scenario B of the spec: 2025-09-20 .. 2025-09-27. -/
def scenBWindow : Option (Int × Int) :=
  some (startTimestamp ⟨2025, 9, 20⟩, endTimestamp ⟨2025, 9, 27⟩)

/-- Scenario B page 1: posts dated 2025-09-25 .. 2025-09-27 (noon), all
in-window, fetched with cursor `L1`. -/
def scenBPage1Posts : List Post :=
  [⟨some (startTimestamp ⟨2025, 9, 25⟩ + 43200), 1⟩,
   ⟨some (startTimestamp ⟨2025, 9, 26⟩ + 43200), 2⟩,
   ⟨some (startTimestamp ⟨2025, 9, 27⟩ + 43200), 3⟩]

/-- Scenario B page 2: posts dated 2025-09-18 .. 2025-09-20 (noon), only the
last one in-window, returning the unchanged cursor `L1`. -/
def scenBPage2 : PageData :=
  ⟨[⟨some (startTimestamp ⟨2025, 9, 18⟩ + 43200), 4⟩,
    ⟨some (startTimestamp ⟨2025, 9, 19⟩ + 43200), 5⟩,
    ⟨some (startTimestamp ⟨2025, 9, 20⟩ + 43200), 6⟩], some "L1"⟩

/-- A post carrying no `timestamp` key at all. -/
def noTsPost : Post := ⟨none, 7⟩

/-- A single-post page whose only post has no timestamp. -/
def noTsPage : PageData := ⟨[noTsPost], none⟩

/-- A post dated 2025-09-21 00:00 UTC-4, inside the 09-20..09-27 window. -/
def scenCPost : Post := ⟨some (startTimestamp ⟨2025, 9, 21⟩), 11⟩

def scenCPage : PageData := ⟨[scenCPost], none⟩

/-! ## Pagination: unfolding equations -/

theorem paginateLoop_zero (w : Option (Int × Int)) (rs : List (Option PageData))
    (lim : Option String) (acc : List Post) :
    paginateLoop w 0 rs lim acc = ⟨acc, .pageLimit, 0⟩ := rfl

theorem paginateLoop_nil (w : Option (Int × Int)) (fuel : Nat)
    (lim : Option String) (acc : List Post) :
    paginateLoop w (fuel + 1) [] lim acc = ⟨acc, .noData, 1⟩ := rfl

theorem paginateLoop_noPayload (w : Option (Int × Int)) (fuel : Nat)
    (rest : List (Option PageData)) (lim : Option String) (acc : List Post) :
    paginateLoop w (fuel + 1) (none :: rest) lim acc = ⟨acc, .noData, 1⟩ := rfl

theorem paginateLoop_page (w : Option (Int × Int)) (fuel : Nat) (pd : PageData)
    (rest : List (Option PageData)) (lim : Option String) (acc : List Post) :
    paginateLoop w (fuel + 1) (some pd :: rest) lim acc =
      if pd.posts.isEmpty then ⟨acc, .emptyPage, 1⟩
      else if limTruthy pd.limiter = false ∨ pd.limiter = lim then
        ⟨acc ++ (pageScan w pd.posts).inRange, .cursorExhausted, 1⟩
      else if pastWindowStop w (pageScan w pd.posts).oldest then
        ⟨acc ++ (pageScan w pd.posts).inRange, .pastWindow, 1⟩
      else
        ⟨(paginateLoop w fuel rest pd.limiter (acc ++ (pageScan w pd.posts).inRange)).posts,
         (paginateLoop w fuel rest pd.limiter (acc ++ (pageScan w pd.posts).inRange)).reason,
         (paginateLoop w fuel rest pd.limiter (acc ++ (pageScan w pd.posts).inRange)).pages + 1⟩ := by
  rfl

theorem processedPages_page (w : Option (Int × Int)) (fuel : Nat) (pd : PageData)
    (rest : List (Option PageData)) (lim : Option String) :
    processedPages w (fuel + 1) (some pd :: rest) lim =
      if pd.posts.isEmpty then [pd]
      else if limTruthy pd.limiter = false ∨ pd.limiter = lim then [pd]
      else if pastWindowStop w (pageScan w pd.posts).oldest then [pd]
      else pd :: processedPages w fuel rest pd.limiter := rfl

/-! ## Pagination: helper lemmas -/

theorem scanPost_inRange_extend (w : Option (Int × Int)) (st : ScanState) (p : Post) :
    ∃ u, (scanPost w st p).inRange = st.inRange ++ u := by
  unfold scanPost
  cases p.timestamp with
  | none => exact ⟨[], by simp⟩
  | some t =>
    by_cases hx : t = 0
    · exact ⟨[], by simp [hx]⟩
    · by_cases hw : inWindow w t
      · exact ⟨[p], by simp [hx, hw]⟩
      · exact ⟨[], by simp [hx, hw]⟩

theorem foldl_scanPost_extend (w : Option (Int × Int)) :
    ∀ (posts : List Post) (st : ScanState),
      ∃ t, (posts.foldl (scanPost w) st).inRange = st.inRange ++ t := by
  intro posts
  induction posts with
  | nil => exact fun st => ⟨[], by simp⟩
  | cons p ps ih =>
    intro st
    obtain ⟨u, hu⟩ := scanPost_inRange_extend w st p
    obtain ⟨t, ht⟩ := ih (scanPost w st p)
    refine ⟨u ++ t, ?_⟩
    rw [List.foldl_cons, ht, hu, List.append_assoc]

theorem paginateLoop_posts_extend (w : Option (Int × Int)) :
    ∀ (fuel : Nat) (rs : List (Option PageData)) (lim : Option String) (acc : List Post),
      ∃ t, (paginateLoop w fuel rs lim acc).posts = acc ++ t := by
  intro fuel
  induction fuel with
  | zero => exact fun rs lim acc => ⟨[], by simp [paginateLoop_zero]⟩
  | succ n ih =>
    intro rs lim acc
    match rs with
    | [] => exact ⟨[], by simp [paginateLoop_nil]⟩
    | none :: rest => exact ⟨[], by simp [paginateLoop_noPayload]⟩
    | some pd :: rest =>
      rw [paginateLoop_page]
      split_ifs with h1 h2 h3
      · exact ⟨[], by simp⟩
      · exact ⟨(pageScan w pd.posts).inRange, rfl⟩
      · exact ⟨(pageScan w pd.posts).inRange, rfl⟩
      · obtain ⟨t, ht⟩ := ih rest pd.limiter (acc ++ (pageScan w pd.posts).inRange)
        exact ⟨(pageScan w pd.posts).inRange ++ t, by
          show (paginateLoop w n rest pd.limiter (acc ++ (pageScan w pd.posts).inRange)).posts = _
          rw [ht, List.append_assoc]⟩

theorem paginateLoop_pages_le (w : Option (Int × Int)) :
    ∀ (fuel : Nat) (rs : List (Option PageData)) (lim : Option String) (acc : List Post),
      (paginateLoop w fuel rs lim acc).pages ≤ fuel := by
  intro fuel
  induction fuel with
  | zero => intro rs lim acc; simp [paginateLoop_zero]
  | succ n ih =>
    intro rs lim acc
    match rs with
    | [] => simp [paginateLoop_nil]
    | none :: rest => simp [paginateLoop_noPayload]
    | some pd :: rest =>
      rw [paginateLoop_page]
      split_ifs with h1 h2 h3
      · simp
      · simp
      · simp
      · show (paginateLoop w n rest pd.limiter (acc ++ (pageScan w pd.posts).inRange)).pages + 1 ≤ n + 1
        exact Nat.succ_le_succ (ih rest pd.limiter _)

theorem scanPost_inRange_eq (w : Option (Int × Int)) (st : ScanState) (p : Post) :
    (scanPost w st p).inRange =
      match p.timestamp with
      | none => st.inRange
      | some t =>
        if t = 0 then st.inRange
        else if inWindow w t then st.inRange ++ [p] else st.inRange := by
  unfold scanPost
  cases p.timestamp with
  | none => rfl
  | some t =>
    by_cases hx : t = 0
    · simp [hx]
    · by_cases hw : inWindow w t <;> simp [hx, hw]

theorem inWindow_of_ne (s e : Int) (hs : s ≠ 0) (he : e ≠ 0) (t : Int) :
    inWindow (some (s, e)) t = decide (s ≤ t ∧ t ≤ e) := by
  simp [inWindow, hs, he]

theorem scanPost_bounds (s e : Int) (hs : s ≠ 0) (he : e ≠ 0) (st : ScanState) (p : Post)
    (hst : ∀ q ∈ st.inRange, ∃ t, q.timestamp = some t ∧ s ≤ t ∧ t ≤ e) :
    ∀ q ∈ (scanPost (some (s, e)) st p).inRange,
      ∃ t, q.timestamp = some t ∧ s ≤ t ∧ t ≤ e := by
  intro q hq
  rw [scanPost_inRange_eq] at hq
  split at hq
  · exact hst q hq
  · rename_i x hts
    split at hq
    · exact hst q hq
    · rename_i hx
      split at hq
      · rename_i hw
        rcases List.mem_append.1 hq with h | h
        · exact hst q h
        · have hqp : q = p := by simpa using h
          subst hqp
          rw [inWindow_of_ne s e hs he] at hw
          have hb := of_decide_eq_true hw
          exact ⟨x, hts, hb.1, hb.2⟩
      · exact hst q hq

theorem foldl_scanPost_bounds (s e : Int) (hs : s ≠ 0) (he : e ≠ 0) :
    ∀ (posts : List Post) (st : ScanState),
      (∀ q ∈ st.inRange, ∃ t, q.timestamp = some t ∧ s ≤ t ∧ t ≤ e) →
      ∀ q ∈ (posts.foldl (scanPost (some (s, e))) st).inRange,
        ∃ t, q.timestamp = some t ∧ s ≤ t ∧ t ≤ e := by
  intro posts
  induction posts with
  | nil => exact fun st h => h
  | cons p ps ih =>
    intro st hst
    exact ih (scanPost (some (s, e)) st p) (scanPost_bounds s e hs he st p hst)

theorem paginateLoop_bounds (s e : Int) (hs : s ≠ 0) (he : e ≠ 0) :
    ∀ (fuel : Nat) (rs : List (Option PageData)) (lim : Option String) (acc : List Post),
      (∀ q ∈ acc, ∃ t, q.timestamp = some t ∧ s ≤ t ∧ t ≤ e) →
      ∀ q ∈ (paginateLoop (some (s, e)) fuel rs lim acc).posts,
        ∃ t, q.timestamp = some t ∧ s ≤ t ∧ t ≤ e := by
  intro fuel
  induction fuel with
  | zero =>
    intro rs lim acc hacc
    simpa [paginateLoop_zero] using hacc
  | succ n ih =>
    intro rs lim acc hacc
    match rs with
    | [] => simpa [paginateLoop_nil] using hacc
    | none :: rest => simpa [paginateLoop_noPayload] using hacc
    | some pd :: rest =>
      rw [paginateLoop_page]
      have happ : ∀ q ∈ acc ++ (pageScan (some (s, e)) pd.posts).inRange,
          ∃ t, q.timestamp = some t ∧ s ≤ t ∧ t ≤ e := by
        intro q hq
        rcases List.mem_append.1 hq with h | h
        · exact hacc q h
        · exact foldl_scanPost_bounds s e hs he pd.posts ⟨[], none, none⟩
            (by intro q hq; simp at hq) q h
      split_ifs with h1 h2 h3
      · simpa using hacc
      · simpa using happ
      · simpa using happ
      · exact ih rest pd.limiter _ happ

theorem startTimestamp_ne_zero (d : CivilDate) : startTimestamp d ≠ 0 := by
  unfold startTimestamp
  omega

theorem endTimestamp_ne_zero (d : CivilDate) : endTimestamp d ≠ 0 := by
  unfold endTimestamp
  omega

theorem scanPost_none_inRange (st : ScanState) (p : Post) :
    (scanPost none st p).inRange =
      st.inRange ++ (if tsTruthy p.timestamp then [p] else []) := by
  rw [scanPost_inRange_eq]
  cases hts : p.timestamp with
  | none => simp [tsTruthy]
  | some x =>
    by_cases hx : x = 0 <;> simp [tsTruthy, hx, inWindow]

theorem foldl_scanPost_none :
    ∀ (posts : List Post) (st : ScanState),
      (posts.foldl (scanPost none) st).inRange =
        st.inRange ++ posts.filter (fun p => tsTruthy p.timestamp) := by
  intro posts
  induction posts with
  | nil => intro st; simp
  | cons p ps ih =>
    intro st
    rw [List.foldl_cons, ih (scanPost none st p), scanPost_none_inRange,
      List.filter_cons]
    by_cases h : tsTruthy p.timestamp <;> simp [h]

theorem pastWindowStop_none (x : Option Int) : pastWindowStop none x = false := by
  cases x <;> rfl

theorem paginateLoop_none_join :
    ∀ (fuel : Nat) (rs : List (Option PageData)) (lim : Option String) (acc : List Post),
      (paginateLoop none fuel rs lim acc).posts =
        acc ++ ((processedPages none fuel rs lim).map
          (fun pd => pd.posts.filter (fun p => tsTruthy p.timestamp))).flatten := by
  intro fuel
  induction fuel with
  | zero => intro rs lim acc; simp [paginateLoop_zero, processedPages]
  | succ n ih =>
    intro rs lim acc
    match rs with
    | [] => simp [paginateLoop_nil, processedPages]
    | none :: rest => simp [paginateLoop_noPayload, processedPages]
    | some pd :: rest =>
      rw [paginateLoop_page, processedPages_page]
      have hscan : (pageScan none pd.posts).inRange =
          pd.posts.filter (fun p => tsTruthy p.timestamp) := by
        unfold pageScan
        rw [foldl_scanPost_none]
        rfl
      split_ifs with h1 h2 h3
      · have : pd.posts = [] := List.isEmpty_iff.1 h1
        simp [this]
      · simp [hscan]
      · rw [pastWindowStop_none] at h3; cases h3
      · rw [ih rest pd.limiter _]
        simp [hscan]

theorem paginateLoop_none_reason_mem :
    ∀ (fuel : Nat) (rs : List (Option PageData)) (lim : Option String) (acc : List Post),
      (paginateLoop none fuel rs lim acc).reason ∈
        [StopReason.noData, StopReason.emptyPage, StopReason.cursorExhausted,
         StopReason.pageLimit] := by
  intro fuel
  induction fuel with
  | zero => intro rs lim acc; simp [paginateLoop_zero]
  | succ n ih =>
    intro rs lim acc
    match rs with
    | [] => simp [paginateLoop_nil]
    | none :: rest => simp [paginateLoop_noPayload]
    | some pd :: rest =>
      rw [paginateLoop_page]
      split_ifs with h1 h2 h3
      · simp
      · simp
      · rw [pastWindowStop_none] at h3; cases h3
      · exact ih rest pd.limiter _

/-! ## Claim theorems: pagination -/

/-- C8. Pagination bound: for every entity (sequence of session payloads),
every date filter and every `maxPages`, the page loop of
`load_more_broadcasts_paginated` performs at most `maxPages` iterations, so
no more than `maxPages` page payloads are ever requested or processed; the
loop is a total function, hence always terminates. -/
theorem pagination_bound (responses : List (Option PageData))
    (date_filter : Option DateFilter) (maxPages : Nat) :
    (load_more_broadcasts_paginated responses date_filter maxPages).pages ≤ maxPages :=
  paginateLoop_pages_le _ maxPages responses none []

/-- C2. Termination inclusion: whenever the loop processes a page with a
non-empty post list, the final result extends the accumulator plus that
page's in-window posts — the posts are appended before any stop condition is
evaluated; and (Scenario B) when the page's cursor equals the cursor used to
fetch it, the loop stops with reason `cursorExhausted` and the result is
exactly the accumulator followed by that page's in-window posts. -/
theorem termination_inclusion (w : Option (Int × Int)) (fuel : Nat) (pd : PageData)
    (rest : List (Option PageData)) (limiter : Option String) (acc : List Post)
    (hne : pd.posts.isEmpty = false) :
    (∃ t, (paginateLoop w (fuel + 1) (some pd :: rest) limiter acc).posts =
        acc ++ (pageScan w pd.posts).inRange ++ t)
    ∧ (pd.limiter = limiter →
        paginateLoop w (fuel + 1) (some pd :: rest) limiter acc =
          ⟨acc ++ (pageScan w pd.posts).inRange, .cursorExhausted, 1⟩) := by
  constructor
  · rw [paginateLoop_page]
    split_ifs with h1 h2 h3
    · rw [h1] at hne; cases hne
    · exact ⟨[], by simp⟩
    · exact ⟨[], by simp⟩
    · obtain ⟨t, ht⟩ :=
        paginateLoop_posts_extend w fuel rest pd.limiter
          (acc ++ (pageScan w pd.posts).inRange)
      exact ⟨t, by simpa using ht⟩
  · intro hlim
    rw [paginateLoop_page, if_neg (by simp [hne]), if_pos (Or.inr hlim)]

/-- Closed check for C2, instantiating Scenario B of the spec: window
2025-09-20..2025-09-27, a second page dated 2025-09-18..09-20 returning the
unchanged cursor `L1`: its 09-20 post is included and the loop stops with
reason `cursorExhausted`. -/
theorem termination_inclusion_check :
    paginateLoop scenBWindow 2 [some scenBPage2] (some "L1") scenBPage1Posts =
      ⟨scenBPage1Posts ++ (pageScan scenBWindow scenBPage2.posts).inRange,
       .cursorExhausted, 1⟩
    ∧ (pageScan scenBWindow scenBPage2.posts).inRange =
      [⟨some (startTimestamp ⟨2025, 9, 20⟩ + 43200), 6⟩] :=
  ⟨(termination_inclusion scenBWindow 1 scenBPage2 [] (some "L1") scenBPage1Posts
      (by decide)).2 rfl,
   by decide⟩

/-- C3. Window containment: when both window dates are supplied, every post
of the paginator's result carries a timestamp `t` with
`startTimestamp start ≤ t ≤ endTimestamp end`, the inclusive epoch bounds of
the start date at 00:00:00 and the end date at 23:59:59 in UTC-4. -/
theorem window_containment (sd ed : CivilDate) (responses : List (Option PageData))
    (maxPages : Nat) :
    ∀ p ∈ (load_more_broadcasts_paginated responses
        (mkDateFilter (some sd) (some ed)) maxPages).posts,
      ∃ t, p.timestamp = some t ∧ startTimestamp sd ≤ t ∧ t ≤ endTimestamp ed := by
  intro p hp
  have hw : computeWindow (mkDateFilter (some sd) (some ed)) =
      some (startTimestamp sd, endTimestamp ed) := rfl
  unfold load_more_broadcasts_paginated at hp
  rw [hw] at hp
  exact paginateLoop_bounds (startTimestamp sd) (endTimestamp ed)
    (startTimestamp_ne_zero sd) (endTimestamp_ne_zero ed)
    maxPages responses none [] (by intro q hq; simp at hq) p hp

/-- Closed check for C3: a one-page run over the 2025-09-20..09-27 window
containing a post dated 2025-09-21 satisfies the bounds. -/
theorem window_containment_check :
    ∃ t, scenCPost.timestamp = some t ∧
      startTimestamp ⟨2025, 9, 20⟩ ≤ t ∧ t ≤ endTimestamp ⟨2025, 9, 27⟩ :=
  window_containment ⟨2025, 9, 20⟩ ⟨2025, 9, 27⟩ [some scenCPage] 25 scenCPost
    (by decide)

/-- C9 counterexample: with an unbounded window, a processed page's post
carrying no `timestamp` key is NOT appended to the output (the `if post_ts:`
truthiness check drops it), so the result is not the concatenation of all
posts of all processed pages. -/
theorem unbounded_pass_through_refuted :
    (load_more_broadcasts_paginated [some noTsPage] none 25).posts = []
    ∧ processedPages none 25 [some noTsPage] none = [noTsPage]
    ∧ noTsPage.posts = [noTsPost] := by
  refine ⟨by decide, by decide, rfl⟩

/-- C9 (amended). Unbounded-window pass-through: when no date filter is
supplied, the result is exactly the concatenation, in page order, of those
posts of the processed pages that carry a present, non-zero timestamp;
posts with an absent or zero timestamp are dropped even though the window is
unbounded. -/
theorem unbounded_pass_through_amended (responses : List (Option PageData))
    (maxPages : Nat) :
    (load_more_broadcasts_paginated responses none maxPages).posts =
      ((processedPages none maxPages responses none).map
        (fun pd => pd.posts.filter (fun p => tsTruthy p.timestamp))).flatten := by
  have h := paginateLoop_none_join maxPages responses none []
  simpa [load_more_broadcasts_paginated, computeWindow] using h

/-- C10. One-sided window collapses to unbounded: when exactly one of the
two dates is supplied, `extract_data_from_page` builds no date filter, so
pagination behaves exactly as with no window at all; in particular the
past-window early stop can never be the termination reason. -/
theorem one_sided_window_unbounded (responses : List (Option PageData))
    (maxPages : Nat) (sd ed : CivilDate) :
    load_more_broadcasts_paginated responses (mkDateFilter (some sd) none) maxPages =
      load_more_broadcasts_paginated responses none maxPages
    ∧ load_more_broadcasts_paginated responses (mkDateFilter none (some ed)) maxPages =
      load_more_broadcasts_paginated responses none maxPages
    ∧ (load_more_broadcasts_paginated responses
        (mkDateFilter (some sd) none) maxPages).reason ∈
        [StopReason.noData, StopReason.emptyPage, StopReason.cursorExhausted,
         StopReason.pageLimit]
    ∧ (load_more_broadcasts_paginated responses
        (mkDateFilter none (some ed)) maxPages).reason ∈
        [StopReason.noData, StopReason.emptyPage, StopReason.cursorExhausted,
         StopReason.pageLimit] :=
  ⟨rfl, rfl, paginateLoop_none_reason_mem maxPages responses none [],
   paginateLoop_none_reason_mem maxPages responses none []⟩

/-! ## Reconciliation: the matching fold -/

theorem foldl_extractStep_total (name : String) :
    ∀ (rows : List RevRow) (st : ExtractState),
      (rows.foldl (extractStep name) st).total_revenue =
        st.total_revenue + sumPayout (rows.filter (fun r => stripTag r = name)) := by
  intro rows
  induction rows with
  | nil => intro st; simp [sumPayout]
  | cons r rs ih =>
    intro st
    rw [List.foldl_cons, ih (extractStep name st r), List.filter_cons]
    by_cases h : stripTag r = name
    · unfold extractStep
      rw [if_pos h]
      simp [h, sumPayout, add_assoc]
    · unfold extractStep
      rw [if_neg h]
      simp [h]

theorem foldl_extractStep_matched (name : String) :
    ∀ (rows : List RevRow) (st : ExtractState),
      (rows.foldl (extractStep name) st).matched =
        (st.matched || rows.any (fun r => stripTag r = name)) := by
  intro rows
  induction rows with
  | nil => intro st; simp
  | cons r rs ih =>
    intro st
    rw [List.foldl_cons, ih (extractStep name st r), List.any_cons]
    by_cases h : stripTag r = name
    · unfold extractStep
      rw [if_pos h]
      simp [h]
    · unfold extractStep
      rw [if_neg h]
      simp [h]

theorem entityTotal_eq (rows : List RevRow) (name : String) :
    entityTotal rows name = sumPayout (rows.filter (fun r => stripTag r = name)) := by
  unfold entityTotal
  rw [foldl_extractStep_total]
  simp [initExtractState]

theorem extract_none_of_no_match (rows : List RevRow) (name : String)
    (h : ∀ r ∈ rows, stripTag r ≠ name) :
    extract_revenue_and_timestamp_for_page rows name = none := by
  unfold extract_revenue_and_timestamp_for_page
  have hm : (rows.foldl (extractStep name) initExtractState).matched = false := by
    rw [foldl_extractStep_matched]
    simp only [initExtractState, Bool.false_or]
    rw [List.any_eq_false]
    intro r hr
    simpa using h r hr
  simp [hm]

theorem entityRecord_eq_zero (rows : List RevRow) (name : String)
    (h : ∀ r ∈ rows, stripTag r ≠ name) :
    entityRecord rows name = zeroRecord := by
  unfold entityRecord
  rw [extract_none_of_no_match rows name h]
  rfl

/-! ## Reconciliation: sum partition lemmas -/

theorem sumPayout_nil : sumPayout [] = 0 := rfl

theorem sumPayout_cons (r : RevRow) (l : List RevRow) :
    sumPayout (r :: l) = parsePayout r + sumPayout l := by
  simp [sumPayout]

theorem sumPayout_filter_or (p q : RevRow → Bool) :
    ∀ (l : List RevRow), (∀ r ∈ l, ¬(p r = true ∧ q r = true)) →
      sumPayout (l.filter (fun r => p r || q r)) =
        sumPayout (l.filter p) + sumPayout (l.filter q) := by
  intro l
  induction l with
  | nil => intro _; simp [sumPayout]
  | cons r rs ih =>
    intro h
    have hrs : ∀ x ∈ rs, ¬(p x = true ∧ q x = true) :=
      fun x hx => h x (List.mem_cons_of_mem r hx)
    have hr := h r (List.mem_cons_self r rs)
    rw [List.filter_cons, List.filter_cons, List.filter_cons]
    cases hp : p r <;> cases hq : q r <;>
      simp only [hp, hq, Bool.false_or, Bool.or_false, Bool.true_or, Bool.or_true,
        if_true, if_false]
    · exact ih hrs
    · rw [sumPayout_cons, sumPayout_cons, ih hrs, if_neg (by simp)]
      ring
    · rw [sumPayout_cons, sumPayout_cons, ih hrs, if_neg (by simp)]
      ring
    · exact absurd ⟨hp, hq⟩ hr

theorem sum_entityTotal_eq (rows : List RevRow) :
    ∀ (names : List String), names.Nodup →
      (names.map (fun n => sumPayout (rows.filter (fun r => stripTag r = n)))).sum =
        sumPayout (rows.filter (fun r => stripTag r ∈ names)) := by
  intro names
  induction names with
  | nil =>
    intro _
    have : rows.filter (fun r => decide (stripTag r ∈ ([] : List String))) = [] := by
      simp
    simp [this, sumPayout]
  | cons n ns ih =>
    intro hnd
    have hn : n ∉ ns := (List.nodup_cons.1 hnd).1
    have hns : ns.Nodup := (List.nodup_cons.1 hnd).2
    rw [List.map_cons, List.sum_cons, ih hns]
    have hcongr : rows.filter (fun r => stripTag r ∈ n :: ns) =
        rows.filter (fun r => decide (stripTag r = n) || decide (stripTag r ∈ ns)) := by
      apply List.filter_congr
      intro r _
      simp [List.mem_cons]
    rw [hcongr, sumPayout_filter_or]
    intro r _
    intro ⟨h1, h2⟩
    exact hn (of_decide_eq_true h1 ▸ of_decide_eq_true h2)

/-! ## Reconciliation: the unmatched grouping map -/

theorem keys_addUnmatchedRow (m : List (String × UnmatchedAcc)) (tag : String) (r : RevRow) :
    (addUnmatchedRow m tag r).map Prod.fst =
      if m.any (fun e => e.1 = tag) then m.map Prod.fst
      else m.map Prod.fst ++ [tag] := by
  unfold addUnmatchedRow
  cases h : m.any (fun e => e.1 = tag)
  · simp [h]
  · simp only [h, if_true]
    rw [List.map_map]
    apply List.map_congr_left
    intro e _
    by_cases he : e.1 = tag
    · simp [he]
    · simp [he]

theorem mem_keys_addUnmatchedRow (m : List (String × UnmatchedAcc)) (tag : String)
    (r : RevRow) (k : String) :
    k ∈ (addUnmatchedRow m tag r).map Prod.fst ↔
      k ∈ m.map Prod.fst ∨ k = tag := by
  rw [keys_addUnmatchedRow]
  cases h : m.any (fun e => e.1 = tag)
  · simp [h]
  · simp only [h, if_true]
    have htag : tag ∈ m.map Prod.fst := by
      rw [List.any_eq_true] at h
      obtain ⟨e, he, he1⟩ := h
      exact List.mem_map.2 ⟨e, he, of_decide_eq_true he1⟩
    constructor
    · exact Or.inl
    · rintro (hk | rfl)
      · exact hk
      · exact htag

theorem nodupKeys_addUnmatchedRow (m : List (String × UnmatchedAcc)) (tag : String)
    (r : RevRow) (hnd : (m.map Prod.fst).Nodup) :
    ((addUnmatchedRow m tag r).map Prod.fst).Nodup := by
  rw [keys_addUnmatchedRow]
  cases h : m.any (fun e => e.1 = tag)
  · have htag : tag ∉ m.map Prod.fst := by
      intro hmem
      obtain ⟨e, he, he1⟩ := List.mem_map.1 hmem
      have hh : m.any (fun e => e.1 = tag) = true :=
        List.any_eq_true.2 ⟨e, he, decide_eq_true he1⟩
      rw [h] at hh
      cases hh
    rw [if_neg Bool.false_ne_true]
    rw [List.nodup_append]
    exact ⟨hnd, List.nodup_singleton tag, by
      intro a ha hb
      rw [List.mem_singleton.1 hb] at ha
      exact htag ha⟩
  · simpa [h] using hnd

theorem entries_addUnmatchedRow (m : List (String × UnmatchedAcc)) (tag : String)
    (r : RevRow) :
    ∀ e ∈ addUnmatchedRow m tag r, e.1 = tag ∨ e ∈ m := by
  unfold addUnmatchedRow
  cases h : m.any (fun e => e.1 = tag)
  · rw [if_neg Bool.false_ne_true]
    intro e he
    rcases List.mem_append.1 he with h1 | h1
    · exact Or.inr h1
    · left
      have : e = (tag, updateAcc ⟨0, "N/A", 0⟩ r) := by simpa using h1
      rw [this]
  · simp only [h, if_true]
    intro e he
    obtain ⟨x, hx, hxe⟩ := List.mem_map.1 he
    by_cases hx1 : x.1 = tag
    · rw [if_pos hx1] at hxe
      left
      rw [← hxe]
    · rw [if_neg hx1] at hxe
      right
      rw [← hxe]
      exact hx

theorem sum_mapUpdate (tag : String) (r : RevRow) :
    ∀ (m : List (String × UnmatchedAcc)), (m.map Prod.fst).Nodup →
      tag ∈ m.map Prod.fst →
      ((m.map (fun e => if e.1 = tag then (tag, updateAcc e.2 r) else e)).map
          (fun e => e.2.total_revenue)).sum =
        (m.map (fun e => e.2.total_revenue)).sum + parsePayout r := by
  intro m
  induction m with
  | nil => intro _ h; cases h
  | cons e es ih =>
    intro hnd hmem
    have hnd' : (es.map Prod.fst).Nodup := by
      rw [List.map_cons, List.nodup_cons] at hnd
      exact hnd.2
    by_cases he : e.1 = tag
    · have hnotin : tag ∉ es.map Prod.fst := by
        rw [List.map_cons, List.nodup_cons] at hnd
        rw [← he]
        exact hnd.1
      have hmap : es.map (fun x => if x.1 = tag then (tag, updateAcc x.2 r) else x) = es := by
        have h1 : es.map (fun x => if x.1 = tag then (tag, updateAcc x.2 r) else x) =
            es.map id := by
          apply List.map_congr_left
          intro x hx
          have hne : x.1 ≠ tag := fun hxx =>
            hnotin (List.mem_map.2 ⟨x, hx, hxx⟩)
          simp [hne]
        simpa using h1
      rw [List.map_cons, if_pos he, hmap, List.map_cons, List.sum_cons,
        List.map_cons, List.sum_cons]
      simp only [updateAcc]
      ring
    · have hmem' : tag ∈ es.map Prod.fst := by
        rw [List.map_cons, List.mem_cons] at hmem
        rcases hmem with h1 | h1
        · exact absurd h1.symm he
        · exact h1
      rw [List.map_cons, if_neg he, List.map_cons, List.sum_cons,
        List.map_cons, List.sum_cons, ih hnd' hmem']
      ring

theorem sum_addUnmatchedRow (m : List (String × UnmatchedAcc)) (tag : String)
    (r : RevRow) (hnd : (m.map Prod.fst).Nodup) :
    ((addUnmatchedRow m tag r).map (fun e => e.2.total_revenue)).sum =
      (m.map (fun e => e.2.total_revenue)).sum + parsePayout r := by
  unfold addUnmatchedRow
  cases h : m.any (fun e => e.1 = tag)
  · rw [if_neg Bool.false_ne_true]
    rw [List.map_append, List.sum_append]
    simp [updateAcc]
  · simp only [h, if_true]
    have hmem : tag ∈ m.map Prod.fst := by
      rw [List.any_eq_true] at h
      obtain ⟨e, he, he1⟩ := h
      exact List.mem_map.2 ⟨e, he, of_decide_eq_true he1⟩
    exact sum_mapUpdate tag r m hnd hmem

theorem exists_mem_cons_unmatched (known : List String) (r : RevRow) (rs : List RevRow)
    (k : String) (hrow : isUnmatchedRow known r = false) :
    (∃ x ∈ r :: rs, isUnmatchedRow known x = true ∧ stripTag x = k) ↔
      (∃ x ∈ rs, isUnmatchedRow known x = true ∧ stripTag x = k) := by
  constructor
  · rintro ⟨x, hx, hq, hs⟩
    rcases List.mem_cons.1 hx with rfl | hx2
    · rw [hrow] at hq; cases hq
    · exact ⟨x, hx2, hq, hs⟩
  · rintro ⟨x, hx, hq, hs⟩
    exact ⟨x, List.mem_cons_of_mem r hx, hq, hs⟩

theorem foldl_unmatchedStep_inv (known : List String) :
    ∀ (rows : List RevRow) (m : List (String × UnmatchedAcc)),
      (m.map Prod.fst).Nodup →
      (∀ e ∈ m, e.1 ≠ "" ∧ e.1 ∉ known) →
      ((rows.foldl (unmatchedStep known) m).map Prod.fst).Nodup
      ∧ (∀ e ∈ rows.foldl (unmatchedStep known) m, e.1 ≠ "" ∧ e.1 ∉ known)
      ∧ (((rows.foldl (unmatchedStep known) m).map (fun e => e.2.total_revenue)).sum =
          (m.map (fun e => e.2.total_revenue)).sum +
            sumPayout (rows.filter (isUnmatchedRow known)))
      ∧ (∀ k, k ∈ (rows.foldl (unmatchedStep known) m).map Prod.fst ↔
          (k ∈ m.map Prod.fst ∨
            ∃ r ∈ rows, isUnmatchedRow known r = true ∧ stripTag r = k)) := by
  intro rows
  induction rows with
  | nil =>
    intro m hnd hpred
    refine ⟨hnd, hpred, by simp [sumPayout], fun k => by simp⟩
  | cons r rs ih =>
    intro m hnd hpred
    rw [List.foldl_cons]
    by_cases h1 : stripTag r = ""
    · have hstep : unmatchedStep known m r = m := by simp [unmatchedStep, h1]
      have hrow : isUnmatchedRow known r = false := by simp [isUnmatchedRow, h1]
      rw [hstep]
      obtain ⟨a, b, c, d⟩ := ih m hnd hpred
      refine ⟨a, b, ?_, ?_⟩
      · rw [c, List.filter_cons, hrow, if_neg Bool.false_ne_true]
      · intro k
        rw [d k, exists_mem_cons_unmatched known r rs k hrow]
    · by_cases h2 : stripTag r ∈ known
      · have hstep : unmatchedStep known m r = m := by simp [unmatchedStep, h1, h2]
        have hrow : isUnmatchedRow known r = false := by simp [isUnmatchedRow, h2]
        rw [hstep]
        obtain ⟨a, b, c, d⟩ := ih m hnd hpred
        refine ⟨a, b, ?_, ?_⟩
        · rw [c, List.filter_cons, hrow, if_neg Bool.false_ne_true]
        · intro k
          rw [d k, exists_mem_cons_unmatched known r rs k hrow]
      · have hstep : unmatchedStep known m r = addUnmatchedRow m (stripTag r) r := by
          simp [unmatchedStep, h1, h2]
        have hrow : isUnmatchedRow known r = true := by simp [isUnmatchedRow, h1, h2]
        rw [hstep]
        have hnd1 := nodupKeys_addUnmatchedRow m (stripTag r) r hnd
        have hpred1 : ∀ e ∈ addUnmatchedRow m (stripTag r) r, e.1 ≠ "" ∧ e.1 ∉ known := by
          intro e he
          rcases entries_addUnmatchedRow m (stripTag r) r e he with heq | hm
          · rw [heq]; exact ⟨h1, h2⟩
          · exact hpred e hm
        obtain ⟨a, b, c, d⟩ := ih (addUnmatchedRow m (stripTag r) r) hnd1 hpred1
        refine ⟨a, b, ?_, ?_⟩
        · rw [c, sum_addUnmatchedRow m (stripTag r) r hnd, List.filter_cons, hrow,
            if_pos rfl, sumPayout_cons]
          ring
        · intro k
          rw [d k, mem_keys_addUnmatchedRow]
          constructor
          · rintro ((hk | hk) | ⟨x, hx, hq, hs⟩)
            · exact Or.inl hk
            · exact Or.inr ⟨r, List.mem_cons_self r rs, hrow, hk.symm⟩
            · exact Or.inr ⟨x, List.mem_cons_of_mem r hx, hq, hs⟩
          · rintro (hk | ⟨x, hx, hq, hs⟩)
            · exact Or.inl (Or.inl hk)
            · rcases List.mem_cons.1 hx with rfl | hx2
              · exact Or.inl (Or.inr hs.symm)
              · exact Or.inr ⟨x, hx2, hq, hs⟩

theorem buildUnmatchedMap_nodupKeys (rows : List RevRow) (known : List String) :
    ((buildUnmatchedMap rows known).map Prod.fst).Nodup :=
  (foldl_unmatchedStep_inv known rows [] (by simp) (by simp)).1

theorem buildUnmatchedMap_pred (rows : List RevRow) (known : List String) :
    ∀ e ∈ buildUnmatchedMap rows known, e.1 ≠ "" ∧ e.1 ∉ known :=
  (foldl_unmatchedStep_inv known rows [] (by simp) (by simp)).2.1

theorem pseudoTotals_sum (rows : List RevRow) (known : List String) :
    (pseudoTotals rows known).sum = sumPayout (rows.filter (isUnmatchedRow known)) := by
  have h := (foldl_unmatchedStep_inv known rows [] (by simp) (by simp)).2.2.1
  unfold pseudoTotals buildUnmatchedMap
  rw [h]
  simp

theorem mem_unmatchedKeys (rows : List RevRow) (known : List String) (k : String) :
    k ∈ unmatchedKeys rows known ↔
      ∃ r ∈ rows, isUnmatchedRow known r = true ∧ stripTag r = k := by
  have h := (foldl_unmatchedStep_inv known rows [] (by simp) (by simp)).2.2.2 k
  unfold unmatchedKeys buildUnmatchedMap
  rw [h]
  simp

theorem unmatchedKeys_not_known (rows : List RevRow) (known : List String) (k : String)
    (hk : k ∈ unmatchedKeys rows known) : k ∉ known := by
  obtain ⟨e, he, hek⟩ := List.mem_map.1 hk
  exact hek ▸ (buildUnmatchedMap_pred rows known e he).2

/-! ## Dict lemmas -/

theorem dictLookup_eq_none (d : List (String × RevenueInfo)) (k : String)
    (h : ∀ e ∈ d, e.1 ≠ k) : dictLookup d k = none := by
  unfold dictLookup
  have hf : d.find? (fun e => e.1 = k) = none :=
    List.find?_eq_none.2 (fun e he => by simpa using h e he)
  rw [hf]

theorem dictLookup_append_single (k : String) (v : RevenueInfo) :
    ∀ (d : List (String × RevenueInfo)) (k' : String),
      dictLookup (d ++ [(k, v)]) k' =
        match dictLookup d k' with
        | some r => some r
        | none => if k = k' then some v else none := by
  intro d
  induction d with
  | nil =>
    intro k'
    by_cases hk : k = k' <;> simp [dictLookup, List.find?, hk]
  | cons e es ih =>
    intro k'
    by_cases he : e.1 = k'
    · simp [dictLookup, List.find?, he]
    · have h1 : dictLookup ((e :: es) ++ [(k, v)]) k' = dictLookup (es ++ [(k, v)]) k' := by
        simp [dictLookup, List.find?, he]
      have h2 : dictLookup (e :: es) k' = dictLookup es k' := by
        simp [dictLookup, List.find?, he]
      rw [h1, h2, ih]

theorem dictLookup_mapUpdate_self (k : String) (v : RevenueInfo) :
    ∀ (d : List (String × RevenueInfo)),
      dictLookup (d.map (fun e => if e.1 = k then (k, v) else e)) k =
        if d.any (fun e => e.1 = k) then some v else none := by
  intro d
  induction d with
  | nil => simp [dictLookup, List.find?]
  | cons e es ih =>
    by_cases he : e.1 = k
    · simp [dictLookup, List.find?, he, List.any_cons]
    · have h1 : dictLookup ((e :: es).map (fun e => if e.1 = k then (k, v) else e)) k =
          dictLookup (es.map (fun e => if e.1 = k then (k, v) else e)) k := by
        simp [dictLookup, List.find?, he]
      rw [h1, ih]
      have hd : decide (e.1 = k) = false := by simpa using he
      simp only [List.any_cons, hd, Bool.false_or]

theorem dictLookup_cons_self (e : String × RevenueInfo)
    (es : List (String × RevenueInfo)) (k : String) (h : e.1 = k) :
    dictLookup (e :: es) k = some e.2 := by
  simp [dictLookup, List.find?, h]

theorem dictLookup_cons_ne (e : String × RevenueInfo)
    (es : List (String × RevenueInfo)) (k : String) (h : ¬(e.1 = k)) :
    dictLookup (e :: es) k = dictLookup es k := by
  simp [dictLookup, List.find?, h]

theorem dictLookup_mapUpdate_ne (k : String) (v : RevenueInfo) (k' : String)
    (hk : k' ≠ k) :
    ∀ (d : List (String × RevenueInfo)),
      dictLookup (d.map (fun e => if e.1 = k then (k, v) else e)) k' = dictLookup d k' := by
  intro d
  induction d with
  | nil => rfl
  | cons e es ih =>
    rw [List.map_cons]
    by_cases he : e.1 = k
    · rw [if_pos he]
      rw [dictLookup_cons_ne _ _ _ (fun h => hk h.symm),
        dictLookup_cons_ne e es k' (by rw [he]; exact fun h => hk h.symm), ih]
    · rw [if_neg he]
      by_cases hek : e.1 = k'
      · rw [dictLookup_cons_self _ _ _ hek, dictLookup_cons_self e es k' hek]
      · rw [dictLookup_cons_ne _ _ _ hek, dictLookup_cons_ne e es k' hek, ih]

theorem dictLookup_insert (d : List (String × RevenueInfo)) (k : String)
    (v : RevenueInfo) (k' : String) :
    dictLookup (dictInsert d k v) k' = if k' = k then some v else dictLookup d k' := by
  unfold dictInsert
  cases h : d.any (fun e => e.1 = k)
  · rw [if_neg Bool.false_ne_true, dictLookup_append_single]
    have hnone : ∀ e ∈ d, e.1 ≠ k := by
      intro e he hek
      have hh : d.any (fun e => e.1 = k) = true := by
        rw [List.any_eq_true]
        exact ⟨e, he, by simpa using hek⟩
      rw [h] at hh
      cases hh
    by_cases hk : k' = k
    · rw [if_pos hk]
      have h0 : dictLookup d k' = none := dictLookup_eq_none d k' (by
        intro e he
        rw [hk]
        exact hnone e he)
      rw [h0, if_pos hk.symm]
    · rw [if_neg hk]
      cases hd : dictLookup d k'
      · rw [if_neg (fun hkk => hk hkk.symm)]
      · rfl
  · rw [if_pos rfl]
    by_cases hk : k' = k
    · rw [if_pos hk, hk, dictLookup_mapUpdate_self, h, if_pos rfl]
    · rw [if_neg hk, dictLookup_mapUpdate_ne k v k' hk]

theorem dictLookup_foldl_insert (f : String → RevenueInfo) :
    ∀ (pages : List Page) (d0 : List (String × RevenueInfo)) (k : String),
      dictLookup (pages.foldl (fun d p => dictInsert d p.name (f p.name)) d0) k =
        if k ∈ pages.map Page.name then some (f k) else dictLookup d0 k := by
  intro pages
  induction pages with
  | nil => intro d0 k; simp
  | cons p ps ih =>
    intro d0 k
    rw [List.foldl_cons, ih]
    by_cases hps : k ∈ ps.map Page.name
    · rw [if_pos hps, if_pos (by simp [hps])]
    · rw [if_neg hps, dictLookup_insert]
      by_cases hk : k = p.name
      · rw [if_pos hk, if_pos (by simp [hk]), hk]
      · rw [if_neg hk, if_neg (by simp [hk, hps])]

theorem dictLookup_foldl_insert_ne (es : List (String × RevenueInfo)) :
    ∀ (d : List (String × RevenueInfo)) (k : String), (∀ e ∈ es, e.1 ≠ k) →
      dictLookup (es.foldl (fun d e => dictInsert d e.1 e.2) d) k = dictLookup d k := by
  induction es with
  | nil => intro d k _; rfl
  | cons e es' ih =>
    intro d k h
    rw [List.foldl_cons, ih _ k (fun x hx => h x (List.mem_cons_of_mem e hx)),
      dictLookup_insert,
      if_neg (fun hk => h e (List.mem_cons_self e es') hk.symm)]

theorem dictLookup_zeroAll (pages : List Page) (k : String) :
    dictLookup (zeroAll pages) k =
      if k ∈ pages.map Page.name then some zeroRecord else none := by
  have h := dictLookup_foldl_insert (fun _ => zeroRecord) pages [] k
  simpa [zeroAll, dictLookup] using h

/-! ## Fetch-level lemmas -/

theorem extract_unmatched_entries_not_known (rows : List RevRow) (known : List String)
    (iz : Bool) :
    ∀ e ∈ extract_unmatched_utm_sources rows known iz, e.1 ∉ known := by
  intro e he
  unfold extract_unmatched_utm_sources at he
  obtain ⟨x, hx, hxe⟩ := List.mem_filterMap.1 he
  split at hxe
  · have hex : e = (x.1, ⟨fmt2 x.2.total_revenue, x.2.timestamp, "", "", "", "", ""⟩) :=
      (Option.some.inj hxe).symm
    rw [hex]
    exact (buildUnmatchedMap_pred rows known x hx).2
  · cases hxe

theorem fetch_eq_zeroAll (pages : List Page) (uid key : String) (outcome : ApiOutcome)
    (iz : Bool) (h : call_spunkstats_api outcome = none) :
    fetch_revenue_for_extracted_pages pages uid key outcome iz = zeroAll pages := by
  unfold fetch_revenue_for_extracted_pages
  by_cases hp : pages.isEmpty
  · rw [if_pos hp]
    have hnil : pages = [] := List.isEmpty_iff.1 hp
    rw [hnil]
    rfl
  · rw [if_neg hp]
    by_cases hc : uid = "" ∨ key = ""
    · rw [if_pos hc]
    · rw [if_neg hc, h]

theorem fetch_lookup_known (pages : List Page) (uid key : String) (rows : List RevRow)
    (iz : Bool) (hu : uid ≠ "") (hk : key ≠ "") (p : Page) (hp : p ∈ pages) :
    dictLookup
        (fetch_revenue_for_extracted_pages pages uid key (.listResp rows) iz) p.name =
      some (entityRecord rows p.name) := by
  unfold fetch_revenue_for_extracted_pages
  have hne : ¬(pages.isEmpty = true) := by
    rw [List.isEmpty_iff]
    exact List.ne_nil_of_mem hp
  rw [if_neg hne, if_neg (by simp [hu, hk])]
  show dictLookup
      ((extract_unmatched_utm_sources rows (pages.map (fun q => q.name)) iz).foldl
        (fun d e => dictInsert d e.1 e.2)
        (pages.foldl (fun d q => dictInsert d q.name (entityRecord rows q.name)) [])) p.name =
    some (entityRecord rows p.name)
  rw [dictLookup_foldl_insert_ne]
  · have h := dictLookup_foldl_insert (entityRecord rows) pages [] p.name
    rw [h, if_pos (List.mem_map_of_mem (fun q => q.name) hp)]
  · intro e he hek
    exact extract_unmatched_entries_not_known rows (pages.map (fun q => q.name)) iz e he
      (hek ▸ List.mem_map_of_mem (fun q => q.name) hp)

theorem extract_unmatched_keys_includeZero (rows : List RevRow) (known : List String) :
    (extract_unmatched_utm_sources rows known true).map Prod.fst =
      unmatchedKeys rows known := by
  unfold extract_unmatched_utm_sources unmatchedKeys
  have hfun : (fun e : String × UnmatchedAcc =>
      if 0 < e.2.total_revenue ∨ true = true then
        some (e.1,
          (⟨fmt2 e.2.total_revenue, e.2.timestamp, "", "", "", "", ""⟩ : RevenueInfo))
      else none) =
      (fun e : String × UnmatchedAcc =>
        some (e.1,
          (⟨fmt2 e.2.total_revenue, e.2.timestamp, "", "", "", "", ""⟩ : RevenueInfo))) := by
    funext e
    exact if_pos (Or.inr rfl)
  rw [hfun, show (fun e : String × UnmatchedAcc =>
      some (e.1,
        (⟨fmt2 e.2.total_revenue, e.2.timestamp, "", "", "", "", ""⟩ : RevenueInfo))) =
      some ∘ (fun e : String × UnmatchedAcc =>
        (e.1,
          (⟨fmt2 e.2.total_revenue, e.2.timestamp, "", "", "", "", ""⟩ : RevenueInfo)))
      from rfl, List.filterMap_eq_map, List.map_map]
  rfl

/-! ## Claim theorems: reconciliation -/

/-- C1. Revenue conservation: for every feed and every family of configured
entity names that are pairwise distinct and non-empty, the sum of the parsed
payouts over the rows with a non-empty stripped tag equals the sum of the
per-known-entity accumulated totals plus the sum of the pseudo-entity
accumulated totals (exactly, at the level of the rational totals that the
2-decimal strings render); and every such row's tag belongs to exactly one
of the two mappings. -/
theorem revenue_conservation (rows : List RevRow) (names : List String)
    (hnd : names.Nodup) (hne : ∀ n ∈ names, n ≠ "") :
    sumPayout (rows.filter (fun r => stripTag r ≠ "")) =
      (names.map (entityTotal rows)).sum + (pseudoTotals rows names).sum
    ∧ ∀ r ∈ rows, stripTag r ≠ "" →
        (stripTag r ∈ names ∧ stripTag r ∉ unmatchedKeys rows names) ∨
        (stripTag r ∉ names ∧ stripTag r ∈ unmatchedKeys rows names) := by
  constructor
  · have hmap : names.map (entityTotal rows) =
        names.map (fun n => sumPayout (rows.filter (fun r => stripTag r = n))) :=
      List.map_congr_left (fun n _ => entityTotal_eq rows n)
    rw [hmap, sum_entityTotal_eq rows names hnd, pseudoTotals_sum rows names]
    have hcongr : rows.filter (fun r => stripTag r ≠ "") =
        rows.filter (fun r => decide (stripTag r ∈ names) || isUnmatchedRow names r) := by
      apply List.filter_congr
      intro r _
      by_cases hm : stripTag r ∈ names
      · have hne2 : stripTag r ≠ "" := hne _ hm
        simp [hm, hne2, isUnmatchedRow]
      · simp [hm, isUnmatchedRow]
    rw [hcongr, sumPayout_filter_or]
    intro r _ hpq
    obtain ⟨hp, hq⟩ := hpq
    have h1 := of_decide_eq_true hp
    have h2 : stripTag r ∉ names := by
      simp only [isUnmatchedRow, Bool.and_eq_true, decide_eq_true_eq] at hq
      exact hq.2
    exact h2 h1
  · intro r hr hne2
    by_cases hm : stripTag r ∈ names
    · exact Or.inl ⟨hm, fun hkk => (unmatchedKeys_not_known rows names _ hkk) hm⟩
    · refine Or.inr ⟨hm, (mem_unmatchedKeys rows names _).2 ⟨r, hr, ?_, rfl⟩⟩
      simp [isUnmatchedRow, hne2, hm]

/-- Closed check for C1, instantiating Scenario A of the spec: rows
`PageA`:10.5, `PageA`:5, `Unknown1`:2 against known names
`PageA`, `PageB`. -/
theorem revenue_conservation_check :
    (sumPayout (scenARows.filter (fun r => stripTag r ≠ "")) =
      (scenANames.map (entityTotal scenARows)).sum +
        (pseudoTotals scenARows scenANames).sum)
    ∧ (∀ r ∈ scenARows, stripTag r ≠ "" →
        (stripTag r ∈ scenANames ∧ stripTag r ∉ unmatchedKeys scenARows scenANames) ∨
        (stripTag r ∉ scenANames ∧ stripTag r ∈ unmatchedKeys scenARows scenANames)) :=
  ⟨(revenue_conservation scenARows scenANames (by decide) (by decide)).1,
   (revenue_conservation scenARows scenANames (by decide) (by decide)).2⟩

/-- C5. Revenue feed failure degradation: whenever the single API call fails
(request error, JSON parse error, or a non-list response — exactly the cases
where `call_spunkstats_api` returns the falsy `{}`), every configured entity
is assigned the zero-valued record, and the output contains nothing else: no
pseudo-entity is produced. The failure is never raised: the fetch is a total
function. -/
theorem revenue_failure_degradation (pages : List Page) (uid key : String)
    (outcome : ApiOutcome) (iz : Bool)
    (h : call_spunkstats_api outcome = none) :
    (∀ p ∈ pages,
      dictLookup (fetch_revenue_for_extracted_pages pages uid key outcome iz) p.name =
        some zeroRecord)
    ∧ (∀ k v,
        dictLookup (fetch_revenue_for_extracted_pages pages uid key outcome iz) k =
          some v →
        (∃ p ∈ pages, p.name = k) ∧ v = zeroRecord) := by
  rw [fetch_eq_zeroAll pages uid key outcome iz h]
  constructor
  · intro p hp
    rw [dictLookup_zeroAll, if_pos (List.mem_map_of_mem Page.name hp)]
  · intro k v hv
    rw [dictLookup_zeroAll] at hv
    by_cases hm : k ∈ pages.map Page.name
    · rw [if_pos hm] at hv
      obtain ⟨p, hp, hpn⟩ := List.mem_map.1 hm
      exact ⟨⟨p, hp, hpn⟩, (Option.some.inj hv).symm⟩
    · rw [if_neg hm] at hv
      cases hv

/-- Closed check for C5 (Scenario C): a network error leaves both configured
pages at the zero record and produces no other keys. -/
theorem revenue_failure_check :
    (∀ p ∈ scenPages,
      dictLookup (fetch_revenue_for_extracted_pages scenPages "u" "k"
        .requestError true) p.name = some zeroRecord)
    ∧ (∀ k v,
        dictLookup (fetch_revenue_for_extracted_pages scenPages "u" "k"
          .requestError true) k = some v →
        (∃ p ∈ scenPages, p.name = k) ∧ v = zeroRecord) :=
  revenue_failure_degradation scenPages "u" "k" .requestError true rfl

/-- C6. Zero-match completeness: on a successful feed, every configured page
(not only the extracted ones — the loop runs over `pages_full_data`) appears
as a key of the reconciliation output, and a page matched by no feed row
carries the zero record `totalPayout "0.00"`, date `"N/A"`. -/
theorem zero_match_completeness (pages : List Page) (uid key : String)
    (rows : List RevRow) (iz : Bool) (hu : uid ≠ "") (hk : key ≠ "") :
    (∀ p ∈ pages,
      (dictLookup (fetch_revenue_for_extracted_pages pages uid key
        (.listResp rows) iz) p.name).isSome = true)
    ∧ (∀ p ∈ pages, (∀ r ∈ rows, stripTag r ≠ p.name) →
        dictLookup (fetch_revenue_for_extracted_pages pages uid key
          (.listResp rows) iz) p.name = some zeroRecord) := by
  constructor
  · intro p hp
    rw [fetch_lookup_known pages uid key rows iz hu hk p hp]
    rfl
  · intro p hp hnm
    rw [fetch_lookup_known pages uid key rows iz hu hk p hp,
      entityRecord_eq_zero rows p.name hnm]

/-- Closed check for C6 on Scenario A: both configured pages appear, and
`PageB` (matched by no row) carries the zero record. -/
theorem zero_match_check :
    (∀ p ∈ scenPages,
      (dictLookup (fetch_revenue_for_extracted_pages scenPages "u" "k"
        (.listResp scenARows) true) p.name).isSome = true)
    ∧ (∀ p ∈ scenPages, (∀ r ∈ scenARows, stripTag r ≠ p.name) →
        dictLookup (fetch_revenue_for_extracted_pages scenPages "u" "k"
          (.listResp scenARows) true) p.name = some zeroRecord) :=
  zero_match_completeness scenPages "u" "k" scenARows true
    (by decide) (by decide)

/-- C7. Mutual exclusivity: a pseudo-entity key produced by
`extract_unmatched_utm_sources` is never a known entity name — pseudo
entities are created only for stripped tags outside the known-name set. -/
theorem mutual_exclusivity (rows : List RevRow) (names : List String) (iz : Bool) :
    ∀ t ∈ (extract_unmatched_utm_sources rows names iz).map Prod.fst, t ∉ names := by
  intro t ht
  obtain ⟨e, he, het⟩ := List.mem_map.1 ht
  exact het ▸ extract_unmatched_entries_not_known rows names iz e he

/-- Closed check for C7: on Scenario A, the pseudo-entity `Unknown1` is not
among the known names. -/
theorem mutual_exclusivity_check : "Unknown1" ∉ scenANames :=
  mutual_exclusivity scenARows scenANames true "Unknown1" (by
    rw [extract_unmatched_keys_includeZero]
    decide)

/-! ## Claim theorems: campaign exclusion (C4) -/

theorem foldl_summary (posts : List CsvPost) :
    ∀ t0 : SummaryTotals,
      posts.foldl (fun t p =>
        { totalCampaigns := t.totalCampaigns
          totalSent := t.totalSent + statVal p.stats.sent
          totalDelivered := t.totalDelivered + statVal p.stats.delivered
          totalRead := t.totalRead + readVal p.stats
          totalClicked := t.totalClicked + statVal p.stats.clicked }) t0 =
      { totalCampaigns := t0.totalCampaigns
        totalSent := t0.totalSent + (posts.map (fun p => statVal p.stats.sent)).sum
        totalDelivered := t0.totalDelivered +
          (posts.map (fun p => statVal p.stats.delivered)).sum
        totalRead := t0.totalRead + (posts.map (fun p => readVal p.stats)).sum
        totalClicked := t0.totalClicked +
          (posts.map (fun p => statVal p.stats.clicked)).sum } := by
  induction posts with
  | nil => intro t0; simp
  | cons p ps ih =>
    intro t0
    rw [List.foldl_cons, ih]
    simp only [List.map_cons, List.sum_cons, SummaryTotals.mk.injEq, true_and]
    refine ⟨by ring, by ring, by ring, by ring⟩

/-- C4 counterexample: the exclusion check of `create_detailed_row` is exact
case-insensitive EQUALITY, not substring matching, and `create_summary_row`
sums over every post with no exclusion at all. Concretely: a post whose
campaign name contains the excluded word "test" as a substring is still
emitted as a detailed row, and a post whose name IS (case-insensitively)
"test" still contributes its 5 sent messages to the page summary totals. -/
theorem campaign_exclusion_counterexample :
    containsCI "test" (campaignName c4SubstrPost) = true
    ∧ (create_detailed_row "P" "1" c4SubstrPost).isSome = true
    ∧ isExcluded (campaignName c4ExcludedPost) = true
    ∧ (create_summary_totals [c4ExcludedPost]).totalSent = 5 := by
  refine ⟨by decide, by decide, by decide, by decide⟩

/-- C4 (amended). Campaign exclusion: a raw record whose campaign/flow name
is case-insensitively EQUAL to a configured excluded name is dropped from
the detailed rows (and only those records are dropped); the per-page summary
totals are computed over ALL posts of the page, excluded records included. -/
theorem campaign_exclusion_amended (pn pid : String) (post : CsvPost)
    (posts : List CsvPost) :
    (isExcluded (campaignName post) = true → create_detailed_row pn pid post = none)
    ∧ (isExcluded (campaignName post) = false →
        (create_detailed_row pn pid post).isSome = true)
    ∧ (create_summary_totals posts).totalCampaigns = posts.length
    ∧ (create_summary_totals posts).totalSent =
        (posts.map (fun p => statVal p.stats.sent)).sum
    ∧ (create_summary_totals posts).totalDelivered =
        (posts.map (fun p => statVal p.stats.delivered)).sum
    ∧ (create_summary_totals posts).totalRead =
        (posts.map (fun p => readVal p.stats)).sum
    ∧ (create_summary_totals posts).totalClicked =
        (posts.map (fun p => statVal p.stats.clicked)).sum := by
  have hsum : create_summary_totals posts =
      { totalCampaigns := posts.length
        totalSent := (posts.map (fun p => statVal p.stats.sent)).sum
        totalDelivered := (posts.map (fun p => statVal p.stats.delivered)).sum
        totalRead := (posts.map (fun p => readVal p.stats)).sum
        totalClicked := (posts.map (fun p => statVal p.stats.clicked)).sum } := by
    unfold create_summary_totals
    rw [foldl_summary]
    simp
  refine ⟨?_, ?_, ?_, ?_, ?_, ?_, ?_⟩
  · intro h
    simp [create_detailed_row, h]
  · intro h
    simp [create_detailed_row, h]
  · rw [hsum]
  · rw [hsum]
  · rw [hsum]
  · rw [hsum]
  · rw [hsum]

/-- Closed check for C4: the exactly-"Test"-named post is dropped from the
detailed rows while still counted in the summary totals. -/
theorem campaign_exclusion_check :
    create_detailed_row "P" "1" c4ExcludedPost = none
    ∧ (create_summary_totals [c4ExcludedPost]).totalSent =
        ([c4ExcludedPost].map (fun p => statVal p.stats.sent)).sum :=
  ⟨(campaign_exclusion_amended "P" "1" c4ExcludedPost []).1 (by decide),
   (campaign_exclusion_amended "P" "1" c4ExcludedPost [c4ExcludedPost]).2.2.2.1⟩

end Spunkads


